import Mathlib

set_option maxHeartbeats 1000000

/-!
Shallow embedding of `src/marinelli.py`: the Marinelli & Niccoli (2000)
pit-dewatering model (class `PitFlow`, class `PitFlowCommonUnits`, and the
module-level helpers), together with a verification of the specification's
claims about it.

Conventions of the embedding:
* Python floats are modelled as real numbers (`ℝ`).
* The mathematical layer (`PitFlow` and its methods below) takes the
  attributes the numerical methods read — including `radius_eff`, which the
  test fixtures and the `PitFlowCommonUnits` delegation intend to supply —
  as ordinary fields, and takes the solved `radius_infl` as an explicit
  argument standing for the cached `fsolve` result.
* `scipy.optimize.fsolve` is external iterative code; it is modelled by an
  abstract `Solver` producing a point estimate and a convergence flag, which
  is exactly the interface the source consumes (and the source reads only
  the point estimate, `fsolve(...)[0]`).
* The object layer (`PitFlowState`) models the attribute dictionary that
  `PitFlow.__init__` actually builds; `radius_eff` is `Option`-valued there
  because the constructor never assigns it, and reading a missing attribute
  is an `AttributeError`.
* Python call semantics for the keyword-argument delegation
  `super().__init__(...)` in `PitFlowCommonUnits.__init__` are modelled by
  `kwargs_bind_ok`: a call binds iff every keyword names a parameter of the
  callee and every parameter without a default receives a value; otherwise
  Python raises `TypeError` before the body runs.
-/

/-- Constant `DAY_TO_SEC = 24 * 60 * 60` from the top of `marinelli.py`. -/
def DAY_TO_SEC : ℝ := 24 * 60 * 60

/-- Constant `YEAR_TO_SEC = 365.25 * 24 * 60 * 60` from the top of `marinelli.py`. -/
def YEAR_TO_SEC : ℝ := 365.25 * 24 * 60 * 60

/-- Constant `M_TO_MM = 1000` from the top of `marinelli.py`. -/
def M_TO_MM : ℝ := 1000

/-- Attributes read by the numerical methods of class `PitFlow`
(mathematical layer; `radius_eff` supplied as a field, see the file header). -/
structure PitFlow where
  drawdown_stab : ℝ
  drawdown_edge : ℝ
  depth_pitlake : ℝ
  radius_eff : ℝ
  recharge : ℝ
  cond_h : ℝ
  anisotropy : ℝ

/-- Local value `radius_term` computed in `_get_marinelli_niccoli_h_0`
(lines 75-78) and in `get_drawdown_at_r` (lines 104-107):
`radius_infl**2 * log(radius / radius_eff) - (radius**2 - radius_eff**2) / 2`. -/
noncomputable def PitFlow.radius_term (P : PitFlow) (radius_infl radius : ℝ) : ℝ :=
  radius_infl ^ 2 * Real.log (radius / P.radius_eff) - (radius ^ 2 - P.radius_eff ^ 2) / 2

/-- Method `_get_marinelli_niccoli_h_0` (lines 71-82): the residual of the
Marinelli & Niccoli (2000) governing equation at trial radius `radius_infl`:
`drawdown_stab - sqrt(drawdown_edge**2 + (recharge / cond_h) * radius_term)`. -/
noncomputable def PitFlow.get_marinelli_niccoli_h_0 (P : PitFlow) (radius_infl : ℝ) : ℝ :=
  P.drawdown_stab -
    Real.sqrt (P.drawdown_edge ^ 2 + P.recharge / P.cond_h * P.radius_term radius_infl radius_infl)

/-- Property `radius_infl_from_edge` (lines 90-93): `radius_infl - radius_eff`. -/
def PitFlow.radius_infl_from_edge (P : PitFlow) (radius_infl : ℝ) : ℝ :=
  radius_infl - P.radius_eff

/-- The else-branch of `get_drawdown_at_r` (lines 102-111): with
`radius = radius_from_wall + radius_eff`, returns
`drawdown_stab - sqrt(drawdown_edge**2 + (recharge / cond_h) * radius_term)`. -/
noncomputable def PitFlow.drawdown_formula (P : PitFlow) (radius_infl radius_from_wall : ℝ) : ℝ :=
  P.drawdown_stab -
    Real.sqrt (P.drawdown_edge ^ 2 +
      P.recharge / P.cond_h * P.radius_term radius_infl (radius_from_wall + P.radius_eff))

/-- Method `get_drawdown_at_r` (lines 95-111): `drawdown_stab` for
`radius_from_wall < 0`, `0` for `radius_from_wall > radius_infl_from_edge`,
otherwise the formula branch. -/
noncomputable def PitFlow.get_drawdown_at_r (P : PitFlow) (radius_infl radius_from_wall : ℝ) : ℝ :=
  if radius_from_wall < 0 then P.drawdown_stab
  else if radius_from_wall > P.radius_infl_from_edge radius_infl then 0
  else P.drawdown_formula radius_infl radius_from_wall

/-- Method `_balance_drawdown_threshold` (lines 113-115):
`get_drawdown_at_r(radius_from_wall) - threshold`. -/
noncomputable def PitFlow.balance_drawdown_threshold
    (P : PitFlow) (radius_infl radius_from_wall threshold : ℝ) : ℝ :=
  P.get_drawdown_at_r radius_infl radius_from_wall - threshold

/-- Property `inflow_zone1` (lines 155-158):
`recharge * pi * (radius_infl**2 - radius_eff**2)`. -/
noncomputable def PitFlow.inflow_zone1 (P : PitFlow) (radius_infl : ℝ) : ℝ :=
  P.recharge * Real.pi * (radius_infl ^ 2 - P.radius_eff ^ 2)

/-- Property `inflow_zone2` (lines 160-169): with
`anisotropy_term = sqrt(cond_h / (cond_h * anisotropy))`, returns
`4 * radius_eff * (cond_h / anisotropy_term) * (drawdown_stab - depth_pitlake)`. -/
noncomputable def PitFlow.inflow_zone2 (P : PitFlow) : ℝ :=
  4 * P.radius_eff * (P.cond_h / Real.sqrt (P.cond_h / (P.cond_h * P.anisotropy))) *
    (P.drawdown_stab - P.depth_pitlake)

/-- Module-level function `get_effective_radius` (lines 305-307):
`sqrt(area / pi)`, with no validation of `area`. -/
noncomputable def get_effective_radius (area : ℝ) : ℝ :=
  Real.sqrt (area / Real.pi)

/-- What a call to `scipy.optimize.fsolve` produces: the point estimate `x`
(the value the source reads as `fsolve(...)[0]`) and whether the iteration
converged (`ier == 1`; without `full_output` non-convergence is reported by a
warning, never an exception). -/
structure FsolveOutcome where
  x : ℝ
  converged : Bool

/-- An abstract iterative root finder standing for `scipy.optimize.fsolve`:
the residual function and the start value `x0` determine an outcome. -/
abbrev Solver := (ℝ → ℝ) → ℝ → FsolveOutcome

/-- Errors a Python caller of this module could observe; `invalidInput` and
`rootFindingError` are the error classes the specification postulates (no code
in `src/` defines or raises them). -/
inductive PyError where
  | attributeError : PyError
  | typeError : PyError
  | invalidInput : PyError
  | rootFindingError : PyError
  deriving DecidableEq

/-- Property `radius_infl` (lines 84-88): returns
`optimize.fsolve(func=self._get_marinelli_niccoli_h_0, x0=10000)[0]` — the
solver's point estimate, whether or not the iteration converged. -/
noncomputable def PitFlow.radius_infl (solve : Solver) (P : PitFlow) : ℝ :=
  (solve P.get_marinelli_niccoli_h_0 10000).x

/-- The result a caller of `radius_infl` observes: the source has no `raise`
and ignores the convergence status, so the call always returns normally. -/
noncomputable def PitFlow.radius_inflE (solve : Solver) (P : PitFlow) : Except PyError ℝ :=
  Except.ok (P.radius_infl solve)

/-- Method `get_r_at_drawdown` (lines 117-124): returns
`optimize.fsolve(func=self._balance_drawdown_threshold, x0=x0, args=(drawdown))[0]`,
with the cached `radius_infl` value used inside the balance function. -/
noncomputable def PitFlow.get_r_at_drawdown
    (solve : Solver) (P : PitFlow) (radius_infl drawdown x0 : ℝ) : ℝ :=
  (solve (fun radius_from_wall =>
    P.balance_drawdown_threshold radius_infl radius_from_wall drawdown) x0).x

/-- The result a caller of `get_r_at_drawdown` observes: the source has no
`raise` and ignores the convergence status, so the call always returns
normally. -/
noncomputable def PitFlow.get_r_at_drawdownE
    (solve : Solver) (P : PitFlow) (radius_infl drawdown x0 : ℝ) : Except PyError ℝ :=
  Except.ok (P.get_r_at_drawdown solve radius_infl drawdown x0)

/-- Recognizer for a normally-returning call. -/
def returns_normally (r : Except PyError ℝ) : Bool :=
  match r with
  | Except.ok _ => true
  | Except.error _ => false

/-- Errorful variant of `get_effective_radius`: the source body is a single
return with no validation, so every call returns normally (for negative area
`np.sqrt` yields `nan` with a warning, not an exception; `Real.sqrt` maps
negatives to `0`, and the no-exception behaviour is what is modelled). -/
noncomputable def get_effective_radiusE (area : ℝ) : Except PyError ℝ :=
  Except.ok (get_effective_radius area)

/-- The attribute dictionary built by `PitFlow.__init__` (lines 47-69):
exactly the attributes the constructor assigns, in source order, plus an
`Option`-valued `radius_eff` recording that this attribute is never assigned
(`none` models the missing attribute). -/
structure PitFlowState where
  drawdown_stab : ℝ
  drawdown_edge : ℝ
  depth_pitlake : ℝ
  area : ℝ
  recharge : ℝ
  precipitation : ℝ
  period_snow_accumulation : ℝ
  period_melting : ℝ
  cond_h : ℝ
  anisotropy : ℝ
  radius_eff : Option ℝ

/-- Constructor `PitFlow.__init__` (lines 47-69): stores its parameters as
attributes; it performs no validation and never assigns `radius_eff`. -/
def PitFlowState.init
    (drawdown_stab area recharge precipitation cond_h anisotropy drawdown_edge depth_pitlake
      period_snow_accumulation period_melting : ℝ) : PitFlowState :=
  ⟨drawdown_stab, drawdown_edge, depth_pitlake, area, recharge, precipitation,
    period_snow_accumulation, period_melting, cond_h, anisotropy, none⟩

/-- The result a caller of `PitFlow.__init__` observes: the body is a sequence
of plain attribute assignments, so construction always returns normally. -/
def PitFlowState.initE
    (drawdown_stab area recharge precipitation cond_h anisotropy drawdown_edge depth_pitlake
      period_snow_accumulation period_melting : ℝ) : Except PyError PitFlowState :=
  Except.ok (PitFlowState.init drawdown_stab area recharge precipitation cond_h anisotropy
    drawdown_edge depth_pitlake period_snow_accumulation period_melting)

/-- Reading `self.radius_eff` on a `PitFlowState`: an `AttributeError` when the
attribute was never assigned. -/
def PitFlowState.attr_radius_eff (s : PitFlowState) : Except PyError ℝ :=
  match s.radius_eff with
  | none => Except.error PyError.attributeError
  | some v => Except.ok v

/-- The mathematical-layer view of a state whose `radius_eff` attribute holds
`re`. -/
def PitFlowState.toPitFlow (s : PitFlowState) (re : ℝ) : PitFlow :=
  ⟨s.drawdown_stab, s.drawdown_edge, s.depth_pitlake, re, s.recharge, s.cond_h, s.anisotropy⟩

/-- Accessing `radius_infl` on a constructed object: `fsolve` evaluates
`_get_marinelli_niccoli_h_0` which reads `self.radius_eff`, so the access
fails with `AttributeError` when that attribute is missing. -/
noncomputable def PitFlowState.radius_inflE (solve : Solver) (s : PitFlowState) :
    Except PyError ℝ :=
  match s.attr_radius_eff with
  | Except.error e => Except.error e
  | Except.ok re => Except.ok (PitFlow.radius_infl solve (s.toPitFlow re))

/-- Calling `get_drawdown_at_r` on a constructed object: the `< 0` branch
returns `drawdown_stab` reading no other attribute; both other branches reach
`radius_infl_from_edge` and hence `radius_infl` and `self.radius_eff`. -/
noncomputable def PitFlowState.get_drawdown_at_rE
    (solve : Solver) (s : PitFlowState) (radius_from_wall : ℝ) : Except PyError ℝ :=
  if radius_from_wall < 0 then Except.ok s.drawdown_stab
  else
    match s.attr_radius_eff with
    | Except.error e => Except.error e
    | Except.ok re =>
        Except.ok ((s.toPitFlow re).get_drawdown_at_r
          (PitFlow.radius_infl solve (s.toPitFlow re)) radius_from_wall)

/-- Accessing `inflow_zone1` on a constructed object: reads `radius_infl`
(hence `self.radius_eff` through the solver callback) and `self.radius_eff`. -/
noncomputable def PitFlowState.inflow_zone1E (solve : Solver) (s : PitFlowState) :
    Except PyError ℝ :=
  match s.attr_radius_eff with
  | Except.error e => Except.error e
  | Except.ok re =>
      Except.ok ((s.toPitFlow re).inflow_zone1 (PitFlow.radius_infl solve (s.toPitFlow re)))

/-- Accessing `inflow_zone2` on a constructed object: reads `self.radius_eff`
directly (line 166). -/
noncomputable def PitFlowState.inflow_zone2E (s : PitFlowState) : Except PyError ℝ :=
  match s.attr_radius_eff with
  | Except.error e => Except.error e
  | Except.ok re => Except.ok ((s.toPitFlow re).inflow_zone2)

/-- Parameter and keyword names occurring in the two constructor signatures. -/
inductive ParamName where
  | drawdown_stab | area | recharge | precipitation | cond_h | anisotropy
  | drawdown_edge | depth_pitlake | period_snow_accumulation | period_melting
  | radius_eff | cond_h_md | recharge_mm_yr
  deriving DecidableEq

/-- The parameters of `PitFlow.__init__` (lines 47-59), `self` aside. -/
def pitflow_init_param_names : List ParamName :=
  [ParamName.drawdown_stab, ParamName.area, ParamName.recharge, ParamName.precipitation,
    ParamName.cond_h, ParamName.anisotropy, ParamName.drawdown_edge, ParamName.depth_pitlake,
    ParamName.period_snow_accumulation, ParamName.period_melting]

/-- The parameters of `PitFlow.__init__` that carry no default value. -/
def pitflow_init_required_names : List ParamName :=
  [ParamName.drawdown_stab, ParamName.area, ParamName.recharge, ParamName.precipitation,
    ParamName.cond_h]

/-- The keywords `PitFlowCommonUnits.__init__` passes to `super().__init__`
(lines 287-295). -/
def commonunits_super_kwarg_names : List ParamName :=
  [ParamName.drawdown_stab, ParamName.cond_h, ParamName.radius_eff, ParamName.recharge,
    ParamName.anisotropy, ParamName.drawdown_edge, ParamName.depth_pitlake]

/-- Python keyword binding: a keyword-only call binds iff every keyword names
a parameter of the callee and every parameter without a default receives a
value; otherwise the call raises `TypeError` before the callee's body runs. -/
def kwargs_bind_ok (params required kwargs : List ParamName) : Bool :=
  kwargs.all (fun k => params.contains k) && required.all (fun k => kwargs.contains k)

/-- Value passed as the `cond_h` keyword by `PitFlowCommonUnits.__init__`
(line 289): `cond_h_md / DAY_TO_SEC`. -/
noncomputable def commonunits_cond_h (cond_h_md : ℝ) : ℝ :=
  cond_h_md / DAY_TO_SEC

/-- Value passed as the `recharge` keyword by `PitFlowCommonUnits.__init__`
(line 291): `recharge_mm_yr / YEAR_TO_SEC / M_TO_MM`. -/
noncomputable def commonunits_recharge (recharge_mm_yr : ℝ) : ℝ :=
  recharge_mm_yr / YEAR_TO_SEC / M_TO_MM

/-- Value passed as the `radius_eff` keyword by `PitFlowCommonUnits.__init__`
(line 290): `get_effective_radius(area)`. -/
noncomputable def commonunits_radius_eff (area : ℝ) : ℝ :=
  get_effective_radius area

/-- Constructor `PitFlowCommonUnits.__init__` (lines 274-295): stores the
three field-unit attributes, converts units, then delegates to
`PitFlow.__init__` by keyword; the delegation raises `TypeError` when the
keyword set does not bind against `PitFlow.__init__`'s signature. The success
branch is unreachable for the source as written (the binding fails: the
keyword `radius_eff` names no parameter and `area`, `precipitation` receive no
value); its value records the conversions actually passed at the call site. -/
noncomputable def PitFlowCommonUnits_initE
    (cond_h_md recharge_mm_yr area drawdown_stab anisotropy drawdown_edge depth_pitlake : ℝ) :
    Except PyError PitFlowState :=
  if kwargs_bind_ok pitflow_init_param_names pitflow_init_required_names
      commonunits_super_kwarg_names then
    Except.ok (PitFlowState.init drawdown_stab area (commonunits_recharge recharge_mm_yr) 0
      (commonunits_cond_h cond_h_md) anisotropy drawdown_edge depth_pitlake
      (90 * DAY_TO_SEC) (14 * DAY_TO_SEC))
  else Except.error PyError.typeError

/-- Conversion the specification states for horizontal conductivity:
`cond_h = cond_h_md / 86400`. -/
noncomputable def spec_cond_h_conversion (cond_h_md : ℝ) : ℝ :=
  cond_h_md / 86400

/-- Conversion the specification states for recharge:
`recharge = recharge_mm_yr / (1000 * 365.25 * 86400)`. -/
noncomputable def spec_recharge_conversion (recharge_mm_yr : ℝ) : ℝ :=
  recharge_mm_yr / (1000 * 365.25 * 86400)

/-- A solver outcome that did not converge and reports an arbitrary point
estimate, as `fsolve` does when its iteration budget is exhausted. -/
noncomputable def solver_stuck : Solver :=
  fun _ _ => ⟨42, false⟩

/-- Concrete parameter set with a nonzero edge boundary condition whose
governing equation has the exact root `exp 1`. -/
noncomputable def P1 : PitFlow :=
  ⟨2, 1, 0, 1, 6, Real.exp 1 ^ 2 + 1, 1⟩

/-- Concrete parameter set with zero edge boundary condition whose governing
equation has the exact root `exp 1`. -/
noncomputable def P2 : PitFlow :=
  ⟨1, 0, 0, 1, 2, Real.exp 1 ^ 2 + 1, 1⟩

/-- Concrete parameter set with unit coefficients. -/
noncomputable def P3 : PitFlow :=
  ⟨2, 0, 0, 1, 1, 1, 1⟩

/-- Concrete valid parameter set (positive radius and conductivity,
nonnegative recharge, positive anisotropy) whose governing equation has a
residual of constant magnitude `1`: no root exists. -/
noncomputable def P4 : PitFlow :=
  ⟨1, 2, 0, 1, 0, 1, 1⟩

lemma exp_one_sq_add_one_pos : (0 : ℝ) < Real.exp 1 ^ 2 + 1 := by positivity

lemma one_le_exp_one : (1 : ℝ) ≤ Real.exp 1 := by
  have h := Real.add_one_le_exp (1 : ℝ)
  linarith

/-- The radial term vanishes at the pit wall. -/
lemma radius_term_self (P : PitFlow) (R : ℝ) (h : P.radius_eff ≠ 0) :
    P.radius_term R P.radius_eff = 0 := by
  unfold PitFlow.radius_term
  rw [div_self h, Real.log_one]
  ring

/-- The radial term at `exp 1` for unit effective radius. -/
lemma radius_term_at_exp (P : PitFlow) (h : P.radius_eff = 1) :
    P.radius_term (Real.exp 1) (Real.exp 1) = (Real.exp 1 ^ 2 + 1) / 2 := by
  unfold PitFlow.radius_term
  rw [h, div_one, Real.log_exp]
  ring

/-- An exact root expresses `drawdown_stab` as the square root of the radial
expression at the root. -/
lemma stab_eq_sqrt (P : PitFlow) (R : ℝ) (hroot : P.get_marinelli_niccoli_h_0 R = 0) :
    P.drawdown_stab =
      Real.sqrt (P.drawdown_edge ^ 2 + P.recharge / P.cond_h * P.radius_term R R) := by
  unfold PitFlow.get_marinelli_niccoli_h_0 at hroot
  linarith

/-- `P1`'s governing equation has the exact root `exp 1`. -/
lemma P1_root : PitFlow.get_marinelli_niccoli_h_0 P1 (Real.exp 1) = 0 := by
  have hne : Real.exp 1 ^ 2 + 1 ≠ 0 := ne_of_gt exp_one_sq_add_one_pos
  unfold PitFlow.get_marinelli_niccoli_h_0
  rw [radius_term_at_exp P1 rfl]
  have h4 : P1.drawdown_edge ^ 2 + P1.recharge / P1.cond_h * ((Real.exp 1 ^ 2 + 1) / 2)
      = 2 ^ 2 := by
    show (1 : ℝ) ^ 2 + 6 / (Real.exp 1 ^ 2 + 1) * ((Real.exp 1 ^ 2 + 1) / 2) = 2 ^ 2
    field_simp
    ring
  rw [h4, Real.sqrt_sq (by norm_num : (0 : ℝ) ≤ 2)]
  show (2 : ℝ) - 2 = 0
  norm_num

/-- `P2`'s governing equation has the exact root `exp 1`. -/
lemma P2_root : PitFlow.get_marinelli_niccoli_h_0 P2 (Real.exp 1) = 0 := by
  have hne : Real.exp 1 ^ 2 + 1 ≠ 0 := ne_of_gt exp_one_sq_add_one_pos
  unfold PitFlow.get_marinelli_niccoli_h_0
  rw [radius_term_at_exp P2 rfl]
  have h1 : P2.drawdown_edge ^ 2 + P2.recharge / P2.cond_h * ((Real.exp 1 ^ 2 + 1) / 2)
      = 1 := by
    show (0 : ℝ) ^ 2 + 2 / (Real.exp 1 ^ 2 + 1) * ((Real.exp 1 ^ 2 + 1) / 2) = 1
    field_simp
  rw [h1, Real.sqrt_one]
  show (1 : ℝ) - 1 = 0
  norm_num

/-- Value of `get_drawdown_at_r` at the wall (`radius_from_wall = 0`): the
formula branch, which evaluates to `drawdown_stab - |drawdown_edge|`. -/
lemma dd_at_zero (P : PitFlow) (R : ℝ) (h1 : 0 < P.radius_eff) (h2 : P.radius_eff ≤ R) :
    P.get_drawdown_at_r R 0 = P.drawdown_stab - |P.drawdown_edge| := by
  unfold PitFlow.get_drawdown_at_r PitFlow.radius_infl_from_edge PitFlow.drawdown_formula
  rw [if_neg (lt_irrefl 0), if_neg (by simp only [not_lt]; linarith : ¬ (0 : ℝ) > R - P.radius_eff)]
  rw [zero_add, radius_term_self P R h1.ne', mul_zero, add_zero, Real.sqrt_sq_eq_abs]

/-- Value of `get_drawdown_at_r` at the influence boundary
(`radius_from_wall = radius_infl - radius_eff`), for an exact root: `0`. -/
lemma dd_at_infl_edge (P : PitFlow) (R : ℝ) (h1 : 0 < P.radius_eff) (h2 : P.radius_eff ≤ R)
    (hroot : P.get_marinelli_niccoli_h_0 R = 0) :
    P.get_drawdown_at_r R (R - P.radius_eff) = 0 := by
  unfold PitFlow.get_drawdown_at_r PitFlow.radius_infl_from_edge PitFlow.drawdown_formula
  rw [if_neg (by simp only [not_lt]; linarith : ¬ R - P.radius_eff < 0),
    if_neg (lt_irrefl (R - P.radius_eff))]
  have hR : R - P.radius_eff + P.radius_eff = R := by ring
  rw [hR]
  have := stab_eq_sqrt P R hroot
  linarith

/-- Monotonicity of the radial term between the pit wall and the influence
radius. -/
lemma radius_term_mono (P : PitFlow) (R a b : ℝ) (h1 : 0 < P.radius_eff)
    (ha : P.radius_eff ≤ a) (hab : a ≤ b) (hb : b ≤ R) :
    P.radius_term R a ≤ P.radius_term R b := by
  have ha0 : 0 < a := lt_of_lt_of_le h1 ha
  have hb0 : 0 < b := lt_of_lt_of_le ha0 hab
  have hR0 : 0 < R := lt_of_lt_of_le hb0 hb
  have hkey : (b - a) / b ≤ Real.log (b / a) := by
    have hlog := Real.log_le_sub_one_of_pos (div_pos ha0 hb0)
    have hinv : Real.log (a / b) = -Real.log (b / a) := by
      rw [Real.log_div ha0.ne' hb0.ne', Real.log_div hb0.ne' ha0.ne']
      ring
    rw [hinv] at hlog
    have hone : (b - a) / b = 1 - a / b := by
      field_simp
    rw [hone]
    linarith
  have hexp : R ^ 2 * Real.log (b / P.radius_eff) - R ^ 2 * Real.log (a / P.radius_eff)
      = R ^ 2 * Real.log (b / a) := by
    rw [Real.log_div hb0.ne' h1.ne', Real.log_div ha0.ne' h1.ne', Real.log_div hb0.ne' ha0.ne']
    ring
  have hmul : R ^ 2 * ((b - a) / b) ≤ R ^ 2 * Real.log (b / a) :=
    mul_le_mul_of_nonneg_left hkey (sq_nonneg R)
  have habR : a * b ≤ R ^ 2 := by nlinarith
  have hbR : b ^ 2 ≤ R ^ 2 := by nlinarith
  have hfact : (0 : ℝ) ≤ (b - a) * (2 * R ^ 2 - b ^ 2 - a * b) :=
    mul_nonneg (by linarith) (by linarith)
  have hfinal : (b ^ 2 - a ^ 2) / 2 ≤ R ^ 2 * ((b - a) / b) := by
    rw [mul_div_assoc', le_div_iff hb0]
    nlinarith
  unfold PitFlow.radius_term
  linarith

/-- C2 counterexample: `PitFlow.__init__` succeeds despite `cond_h = -1 ≤ 0`
(no `InvalidInput` is raised), and `PitFlowCommonUnits.__init__` fails with
`TypeError` even for parameters satisfying every claimed constraint
(`cond_h_md = 1 > 0`, `recharge_mm_yr = 1 ≥ 0`, `area = 1 > 0`,
`anisotropy = 1 > 0`). -/
theorem C2_counterexample :
    PitFlowState.initE 1 1 1 1 (-1) 1 0 0 1 1
      = Except.ok (PitFlowState.init 1 1 1 1 (-1) 1 0 0 1 1) ∧
    (-1 : ℝ) ≤ 0 ∧
    PitFlowCommonUnits_initE 1 1 1 6 1 0 0 = Except.error PyError.typeError := by
  refine ⟨rfl, by norm_num, ?_⟩
  unfold PitFlowCommonUnits_initE
  rw [if_neg]
  intro h
  exact absurd h (by decide)

/-- C2 amended: neither constructor validates its parameters.
`PitFlow.__init__` returns normally on every input, merely storing the
parameters; `PitFlowCommonUnits.__init__` raises `TypeError` on every input
(valid or not), because its delegation to `PitFlow.__init__` passes an
unexpected `radius_eff` keyword and omits the required `area` and
`precipitation` arguments. Neither ever raises `InvalidInput`. -/
theorem C2_no_validation_amended :
    (∀ a b c d e f g h i j : ℝ,
      PitFlowState.initE a b c d e f g h i j
        = Except.ok (PitFlowState.init a b c d e f g h i j)) ∧
    (∀ a b c d e f g : ℝ,
      PitFlowCommonUnits_initE a b c d e f g = Except.error PyError.typeError) := by
  refine ⟨fun _ _ _ _ _ _ _ _ _ _ => rfl, fun a b c d e f g => ?_⟩
  unfold PitFlowCommonUnits_initE
  rw [if_neg]
  intro h
  exact absurd h (by decide)

/-- C3 counterexample: with a solver outcome that did not converge
(`converged = false`), `radius_infl` still returns normally with the solver's
point estimate `42` — no `RootFindingError` (or any error) is raised, contrary
to the claimed equivalence between non-convergence and failure. -/
theorem C3_counterexample :
    (solver_stuck (PitFlow.get_marinelli_niccoli_h_0 P3) 10000).converged = false ∧
    PitFlow.radius_inflE solver_stuck P3 = Except.ok 42 := by
  exact ⟨rfl, rfl⟩

/-- C3 amended: the code never raises on non-convergence. Both root-finding
queries unconditionally return the solver's point estimate (`fsolve(...)[0]`),
discarding the convergence status; a failed solve silently yields the last
iterate. No `RootFindingError` exists in the code. -/
theorem C3_never_raises_amended :
    ∀ (solve : Solver) (P : PitFlow) (radius_infl drawdown x0 : ℝ),
      returns_normally (PitFlow.radius_inflE solve P) = true ∧
      returns_normally (PitFlow.get_r_at_drawdownE solve P radius_infl drawdown x0) = true ∧
      PitFlow.radius_inflE solve P
        = Except.ok ((solve P.get_marinelli_niccoli_h_0 10000).x) := by
  intro solve P radius_infl drawdown x0
  exact ⟨rfl, rfl, rfl⟩

/-- C5 counterexample: the parameter set `P4` satisfies every validity
constraint of the specification, yet the governing-equation residual at the
value `radius_infl` returns (for a non-converging solve — and, as the amended
theorem shows, at every other radius as well) has magnitude `1 ≥ 1e-9`. -/
theorem C5_counterexample :
    (0 : ℝ) < P4.radius_eff ∧ (0 : ℝ) < P4.cond_h ∧ (0 : ℝ) ≤ P4.recharge ∧
    (0 : ℝ) < P4.anisotropy ∧
    (1e-9 : ℝ) ≤ |PitFlow.get_marinelli_niccoli_h_0 P4 (PitFlow.radius_infl solver_stuck P4)| := by
  refine ⟨by norm_num [P4], by norm_num [P4], by norm_num [P4], by norm_num [P4], ?_⟩
  have h : PitFlow.get_marinelli_niccoli_h_0 P4 (PitFlow.radius_infl solver_stuck P4) = -1 := by
    unfold PitFlow.get_marinelli_niccoli_h_0
    have h2 : P4.drawdown_edge ^ 2 + P4.recharge / P4.cond_h *
        P4.radius_term (PitFlow.radius_infl solver_stuck P4) (PitFlow.radius_infl solver_stuck P4)
        = 2 ^ 2 := by
      show (2 : ℝ) ^ 2 + 0 / 1 * _ = 2 ^ 2
      norm_num
    rw [h2, Real.sqrt_sq (by norm_num : (0 : ℝ) ≤ 2)]
    show (1 : ℝ) - 2 = -1
    norm_num
  rw [h]
  norm_num

/-- C5 amended: the residual bound holds exactly at roots of the governing
equation, but validity of the parameters does not guarantee a root exists:
for the valid parameter set `P4` the residual has magnitude `1` at every
radius, so no value any solver returns can satisfy `|f(R)| < 1e-9`. The claim
holds only for parameter sets whose governing equation has a root and on
which the solver converges to it. -/
theorem C5_residual_amended :
    (∀ (P : PitFlow) (R : ℝ), P.get_marinelli_niccoli_h_0 R = 0 →
      |P.get_marinelli_niccoli_h_0 R| < 1e-9) ∧
    (∀ R : ℝ, (1e-9 : ℝ) ≤ |PitFlow.get_marinelli_niccoli_h_0 P4 R|) := by
  constructor
  · intro P R hroot
    rw [hroot]
    norm_num
  · intro R
    have h : PitFlow.get_marinelli_niccoli_h_0 P4 R = -1 := by
      unfold PitFlow.get_marinelli_niccoli_h_0
      have h2 : P4.drawdown_edge ^ 2 + P4.recharge / P4.cond_h * P4.radius_term R R
          = 2 ^ 2 := by
        show (2 : ℝ) ^ 2 + 0 / 1 * _ = 2 ^ 2
        norm_num
      rw [h2, Real.sqrt_sq (by norm_num : (0 : ℝ) ≤ 2)]
      show (1 : ℝ) - 2 = -1
      norm_num
    rw [h]
    norm_num

/-- C5 witness: the exact-root half of the amended theorem instantiated at the
concrete solved model `P2` with root `exp 1`. -/
theorem C5_residual_amended_witness :
    PitFlow.get_marinelli_niccoli_h_0 P2 (Real.exp 1) = 0 ∧
    |PitFlow.get_marinelli_niccoli_h_0 P2 (Real.exp 1)| < 1e-9 :=
  ⟨P2_root, C5_residual_amended.1 P2 (Real.exp 1) P2_root⟩

/-- C7: `inflow_zone2` equals
`4 * radius_eff * (cond_h / sqrt(1 / anisotropy)) * (drawdown_stab - depth_pitlake)`
whenever `cond_h > 0`, and reduces to
`4 * radius_eff * cond_h * (drawdown_stab - depth_pitlake)` when
`anisotropy = 1`. -/
theorem C7_inflow_zone2 (P : PitFlow) (hK : 0 < P.cond_h) :
    PitFlow.inflow_zone2 P
      = 4 * P.radius_eff * (P.cond_h / Real.sqrt (1 / P.anisotropy)) *
        (P.drawdown_stab - P.depth_pitlake) ∧
    (P.anisotropy = 1 →
      PitFlow.inflow_zone2 P
        = 4 * P.radius_eff * P.cond_h * (P.drawdown_stab - P.depth_pitlake)) := by
  have h : P.cond_h / (P.cond_h * P.anisotropy) = 1 / P.anisotropy := by
    rw [← div_div, div_self hK.ne']
  constructor
  · unfold PitFlow.inflow_zone2
    rw [h]
  · intro ha
    unfold PitFlow.inflow_zone2
    rw [h, ha]
    norm_num

/-- C7 witness: the theorem instantiated at the concrete parameter set `P3`
(`cond_h = 1 > 0`, `anisotropy = 1`). -/
theorem C7_inflow_zone2_witness :
    (0 : ℝ) < P3.cond_h ∧
    PitFlow.inflow_zone2 P3 = 4 * P3.radius_eff * P3.cond_h *
      (P3.drawdown_stab - P3.depth_pitlake) :=
  ⟨by norm_num [P3], (C7_inflow_zone2 P3 (by norm_num [P3])).2 (by norm_num [P3])⟩

/-- C8 counterexample: at `area = 0 ≤ 0`, `get_effective_radius` does not fail
with `InvalidInput`; it returns normally with the value `0`. -/
theorem C8_counterexample :
    (0 : ℝ) ≤ 0 ∧ get_effective_radiusE 0 = Except.ok 0 := by
  refine ⟨le_refl 0, ?_⟩
  unfold get_effective_radiusE get_effective_radius
  rw [zero_div, Real.sqrt_zero]

/-- C8 amended: `get_effective_radius` performs no validation — every call
returns normally (for `area ≤ 0` there is no `InvalidInput`: `area = 0` yields
`0` and negative area yields `nan` via a warning). For `area > 0` it returns
`sqrt(area / π)`, a pure value whose square times `π` recovers the area. -/
theorem C8_effective_radius_amended :
    (∀ area : ℝ, get_effective_radiusE area = Except.ok (get_effective_radius area)) ∧
    (∀ area : ℝ, 0 < area → Real.pi * get_effective_radius area ^ 2 = area) := by
  refine ⟨fun _ => rfl, fun area ha => ?_⟩
  unfold get_effective_radius
  rw [Real.sq_sqrt (div_nonneg ha.le Real.pi_pos.le)]
  field_simp

/-- C8 witness: the positive-area half of the amended theorem instantiated at
`area = π`. -/
theorem C8_effective_radius_amended_witness :
    (0 : ℝ) < Real.pi ∧ Real.pi * get_effective_radius Real.pi ^ 2 = Real.pi :=
  ⟨Real.pi_pos, C8_effective_radius_amended.2 Real.pi Real.pi_pos⟩

/-- C9: at the module's own test fixture input
(`cond_h_md = 20`, `recharge_mm_yr = 76.1`, `area = 4000`,
`drawdown_stab = 6`), `PitFlowCommonUnits.__init__` raises `TypeError` —
its delegation does not bind against `PitFlow.__init__`'s signature — so no
`radius_of_influence()` is ever produced and the claimed equivalence with the
SI constructor cannot hold (the module's test
`test_radius_infl_commonunits` cannot pass). The unit conversions the call
site performs do match the specified ones, so the slip is the delegation
signature, not the arithmetic. -/
theorem C9_commonunits_typeerror :
    PitFlowCommonUnits_initE 20 76.1 4000 6 1 0 0 = Except.error PyError.typeError ∧
    kwargs_bind_ok pitflow_init_param_names pitflow_init_required_names
      commonunits_super_kwarg_names = false ∧
    (∀ x : ℝ, commonunits_cond_h x = spec_cond_h_conversion x) ∧
    (∀ x : ℝ, commonunits_recharge x = spec_recharge_conversion x) ∧
    (∀ x : ℝ, commonunits_radius_eff x = get_effective_radius x) := by
  refine ⟨?_, by decide, ?_, ?_, fun _ => rfl⟩
  · unfold PitFlowCommonUnits_initE
    rw [if_neg]
    intro h
    exact absurd h (by decide)
  · intro x
    unfold commonunits_cond_h spec_cond_h_conversion DAY_TO_SEC
    norm_num
  · intro x
    unfold commonunits_recharge spec_recharge_conversion YEAR_TO_SEC M_TO_MM
    rw [div_div]
    norm_num

/-- C10 counterexample: on an object built by `PitFlow.__init__`, calling
`get_drawdown_at_r` with a negative radius returns the number
`drawdown_stab = 6` — the `< 0` branch reads no missing attribute — so not
every listed access fails with an attribute error. -/
theorem C10_counterexample :
    PitFlowState.get_drawdown_at_rE solver_stuck
      (PitFlowState.init 6 4000 1 1 1 1 0 0 1 1) (-20) = Except.ok 6 := by
  unfold PitFlowState.get_drawdown_at_rE
  rw [if_pos (by norm_num : (-20 : ℝ) < 0)]
  rfl

/-- C10 amended: `PitFlow.__init__` never assigns `radius_eff`, so on every
object it builds, the first access of `radius_infl`, `inflow_zone1` or
`inflow_zone2` fails with `AttributeError`, and `get_drawdown_at_r` fails with
`AttributeError` for every `radius_from_wall ≥ 0`; only the
`radius_from_wall < 0` branch returns a number (`drawdown_stab`), since it
reads no missing attribute. The core solve is unreachable through the declared
constructor. -/
theorem C10_attribute_error_amended :
    ∀ (solve : Solver) (a b c d e f g h i j r : ℝ),
      PitFlowState.radius_inflE solve (PitFlowState.init a b c d e f g h i j)
        = Except.error PyError.attributeError ∧
      PitFlowState.inflow_zone1E solve (PitFlowState.init a b c d e f g h i j)
        = Except.error PyError.attributeError ∧
      PitFlowState.inflow_zone2E (PitFlowState.init a b c d e f g h i j)
        = Except.error PyError.attributeError ∧
      (0 ≤ r → PitFlowState.get_drawdown_at_rE solve (PitFlowState.init a b c d e f g h i j) r
        = Except.error PyError.attributeError) ∧
      (r < 0 → PitFlowState.get_drawdown_at_rE solve (PitFlowState.init a b c d e f g h i j) r
        = Except.ok a) := by
  intro solve a b c d e f g h i j r
  refine ⟨rfl, rfl, rfl, fun hr => ?_, fun hr => ?_⟩
  · unfold PitFlowState.get_drawdown_at_rE
    rw [if_neg (not_lt.mpr hr)]
    rfl
  · unfold PitFlowState.get_drawdown_at_rE
    rw [if_pos hr]
    rfl

/-- C10 witness: the amended theorem instantiated at a concrete object and
`radius_from_wall = 1 ≥ 0`. -/
theorem C10_attribute_error_amended_witness :
    (0 : ℝ) ≤ 1 ∧
    PitFlowState.get_drawdown_at_rE solver_stuck (PitFlowState.init 1 1 1 1 1 1 1 1 1 1) 1
      = Except.error PyError.attributeError :=
  ⟨by norm_num,
    (C10_attribute_error_amended solver_stuck 1 1 1 1 1 1 1 1 1 1 1).2.2.2.1 (by norm_num)⟩

/-- C1 counterexample: `P1` is a solved model (its governing equation has the
exact root `exp 1`) with `drawdown_edge = 1`; at `radius_from_wall = 0 ≤ 0`
the formula branch returns `drawdown_stab - |drawdown_edge| = 1`, not
`drawdown_stab = 2`. -/
theorem C1_counterexample :
    PitFlow.get_marinelli_niccoli_h_0 P1 (Real.exp 1) = 0 ∧
    PitFlow.get_drawdown_at_r P1 (Real.exp 1) 0 = 1 ∧
    P1.drawdown_stab = 2 := by
  refine ⟨P1_root, ?_, rfl⟩
  rw [dd_at_zero P1 (Real.exp 1) (by norm_num [P1]) ?_]
  · show (2 : ℝ) - |(1 : ℝ)| = 1
    rw [abs_one]
    norm_num
  · show (1 : ℝ) ≤ Real.exp 1
    exact one_le_exp_one

/-- C1 amended: for a solved model with the default `drawdown_edge = 0` and an
exact root `radius_infl ≥ radius_eff > 0`, the claimed boundary behaviour
holds including the boundary points: `get_drawdown_at_r` returns exactly
`drawdown_stab` for every `radius_from_wall ≤ 0` and exactly `0` for every
`radius_from_wall ≥ radius_infl_from_edge`. For `drawdown_edge ≠ 0` the claim
fails at `radius_from_wall = 0`, where the formula branch returns
`drawdown_stab - |drawdown_edge|`. -/
theorem C1_boundary_amended (P : PitFlow) (R : ℝ) (h1 : 0 < P.radius_eff)
    (h2 : P.radius_eff ≤ R) (hedge : P.drawdown_edge = 0)
    (hroot : P.get_marinelli_niccoli_h_0 R = 0) :
    (∀ r : ℝ, r ≤ 0 → P.get_drawdown_at_r R r = P.drawdown_stab) ∧
    (∀ r : ℝ, P.radius_infl_from_edge R ≤ r → P.get_drawdown_at_r R r = 0) := by
  constructor
  · intro r hr
    rcases lt_or_eq_of_le hr with hlt | heq
    · unfold PitFlow.get_drawdown_at_r
      rw [if_pos hlt]
    · rw [heq, dd_at_zero P R h1 h2, hedge, abs_zero, sub_zero]
  · intro r hr
    unfold PitFlow.radius_infl_from_edge at hr
    rcases lt_or_eq_of_le hr with hlt | heq
    · unfold PitFlow.get_drawdown_at_r PitFlow.radius_infl_from_edge
      rw [if_neg (by simp only [not_lt]; linarith : ¬ r < 0), if_pos hlt]
    · rw [← heq]
      exact dd_at_infl_edge P R h1 h2 hroot

/-- C1 witness: the amended theorem instantiated at the concrete solved model
`P2` (root `exp 1`, `drawdown_edge = 0`), at the boundary points
`radius_from_wall = -1` and `radius_from_wall = radius_infl_from_edge`. -/
theorem C1_boundary_amended_witness :
    (0 : ℝ) < P2.radius_eff ∧ P2.drawdown_edge = 0 ∧
    PitFlow.get_marinelli_niccoli_h_0 P2 (Real.exp 1) = 0 ∧
    PitFlow.get_drawdown_at_r P2 (Real.exp 1) (-1) = P2.drawdown_stab ∧
    PitFlow.get_drawdown_at_r P2 (Real.exp 1) (PitFlow.radius_infl_from_edge P2 (Real.exp 1))
      = 0 :=
  ⟨by norm_num [P2], rfl, P2_root,
    (C1_boundary_amended P2 (Real.exp 1) (by norm_num [P2]) one_le_exp_one rfl P2_root).1
      (-1) (by norm_num),
    (C1_boundary_amended P2 (Real.exp 1) (by norm_num [P2]) one_le_exp_one rfl P2_root).2
      (PitFlow.radius_infl_from_edge P2 (Real.exp 1)) (le_refl _)⟩

/-- In the formula branch the square-root argument is bounded by its value at
the influence radius, so the formula value stays between `0` and
`drawdown_stab` for an exact root. -/
lemma sqrt_arg_le_stab (P : PitFlow) (R x : ℝ) (h1 : 0 < P.radius_eff) (hK : 0 < P.cond_h)
    (hN : 0 ≤ P.recharge) (hroot : P.get_marinelli_niccoli_h_0 R = 0)
    (hx0 : 0 ≤ x) (hxR : x ≤ R - P.radius_eff) :
    Real.sqrt (P.drawdown_edge ^ 2 +
        P.recharge / P.cond_h * P.radius_term R (x + P.radius_eff))
      ≤ P.drawdown_stab := by
  rw [stab_eq_sqrt P R hroot]
  apply Real.sqrt_le_sqrt
  have hmono := radius_term_mono P R (x + P.radius_eff) R h1
    (by linarith) (by linarith) (le_refl R)
  have hc : 0 ≤ P.recharge / P.cond_h := div_nonneg hN hK.le
  nlinarith

/-- C4: for a valid parameter set (`radius_eff > 0`, `cond_h > 0`,
`recharge ≥ 0`) whose radius of influence is an exact root of the governing
equation, `get_drawdown_at_r` is monotonic non-increasing over its whole
domain: `r1 < r2` implies `drawdown(r2) ≤ drawdown(r1)`. -/
theorem C4_drawdown_monotone (P : PitFlow) (R : ℝ) (h1 : 0 < P.radius_eff)
    (hK : 0 < P.cond_h) (hN : 0 ≤ P.recharge)
    (hroot : P.get_marinelli_niccoli_h_0 R = 0) :
    ∀ r1 r2 : ℝ, r1 < r2 → P.get_drawdown_at_r R r2 ≤ P.get_drawdown_at_r R r1 := by
  have hstab := stab_eq_sqrt P R hroot
  have hstab0 : 0 ≤ P.drawdown_stab := by
    rw [hstab]
    exact Real.sqrt_nonneg _
  have hc : 0 ≤ P.recharge / P.cond_h := div_nonneg hN hK.le
  intro r1 r2 hlt
  unfold PitFlow.get_drawdown_at_r PitFlow.radius_infl_from_edge PitFlow.drawdown_formula
  split_ifs with hA2 hA1 hB1 hB2 hA1 hB1 hA1 hB1
  · exact le_refl _
  · linarith
  · linarith
  · exact hstab0
  · exact le_refl _
  · have hle := sqrt_arg_le_stab P R r1 h1 hK hN hroot (not_lt.mp hA1) (not_lt.mp hB1)
    linarith
  · have := Real.sqrt_nonneg (P.drawdown_edge ^ 2 +
      P.recharge / P.cond_h * P.radius_term R (r2 + P.radius_eff))
    linarith
  · linarith [not_lt.mp hB2]
  · have hr10 : (0 : ℝ) ≤ r1 := not_lt.mp hA1
    have hr2R : r2 ≤ R - P.radius_eff := not_lt.mp hB2
    have hmono := radius_term_mono P R (r1 + P.radius_eff) (r2 + P.radius_eff) h1
      (by linarith) (by linarith) (by linarith)
    have harg : P.drawdown_edge ^ 2 + P.recharge / P.cond_h * P.radius_term R (r1 + P.radius_eff)
        ≤ P.drawdown_edge ^ 2 + P.recharge / P.cond_h * P.radius_term R (r2 + P.radius_eff) := by
      nlinarith
    have := Real.sqrt_le_sqrt harg
    linarith

/-- C4 witness: the theorem instantiated at the concrete solved model `P2`
(root `exp 1`) and the pair `r1 = 0 < 1 = r2`. -/
theorem C4_drawdown_monotone_witness :
    (0 : ℝ) < P2.radius_eff ∧ (0 : ℝ) < P2.cond_h ∧ (0 : ℝ) ≤ P2.recharge ∧
    PitFlow.get_marinelli_niccoli_h_0 P2 (Real.exp 1) = 0 ∧
    PitFlow.get_drawdown_at_r P2 (Real.exp 1) 1 ≤ PitFlow.get_drawdown_at_r P2 (Real.exp 1) 0 :=
  ⟨by norm_num [P2], by simp only [P2]; positivity, by norm_num [P2], P2_root,
    C4_drawdown_monotone P2 (Real.exp 1) (by norm_num [P2]) (by simp only [P2]; positivity)
      (by norm_num [P2]) P2_root 0 1 (by norm_num)⟩

/-- C6 counterexample: `P1` is a solved model (exact root `exp 1`) whose
`drawdown_edge` is `1 ≠ 0`; for the threshold `t = 3/2`, strictly between `0`
and `drawdown_stab = 2`, the balance residual has magnitude at least `1/2` at
the radius `10` (and, by the amended theorem, at every radius), so the inverse
query has no root to converge to; in particular the round trip evaluates to
`0 ≠ 3/2` on a non-converging solve. -/
theorem C6_counterexample :
    PitFlow.get_marinelli_niccoli_h_0 P1 (Real.exp 1) = 0 ∧
    (0 : ℝ) < 3 / 2 ∧ (3 / 2 : ℝ) < P1.drawdown_stab ∧
    (1 / 2 : ℝ) ≤ |PitFlow.balance_drawdown_threshold P1 (Real.exp 1) 10 (3 / 2)| ∧
    PitFlow.get_drawdown_at_r P1 (Real.exp 1)
      (PitFlow.get_r_at_drawdown solver_stuck P1 (Real.exp 1) (3 / 2) 10) = 0 := by
  have hexp3 : Real.exp 1 < 3 := by
    have h := Real.exp_one_lt_d9
    linarith
  refine ⟨P1_root, by norm_num, by norm_num [P1], ?_, ?_⟩
  · have h10 : PitFlow.get_drawdown_at_r P1 (Real.exp 1) 10 = 0 := by
      unfold PitFlow.get_drawdown_at_r PitFlow.radius_infl_from_edge
      rw [if_neg (by norm_num : ¬ (10 : ℝ) < 0),
        if_pos (by show Real.exp 1 - P1.radius_eff < 10; norm_num [P1]; linarith)]
    unfold PitFlow.balance_drawdown_threshold
    rw [h10]
    norm_num
    rw [abs_of_nonneg (by norm_num : (0 : ℝ) ≤ 3 / 2)]
    norm_num
  · have h42 : PitFlow.get_r_at_drawdown solver_stuck P1 (Real.exp 1) (3 / 2) 10 = 42 := rfl
    rw [h42]
    unfold PitFlow.get_drawdown_at_r PitFlow.radius_infl_from_edge
    rw [if_neg (by norm_num : ¬ (42 : ℝ) < 0),
      if_pos (by show Real.exp 1 - P1.radius_eff < 42; norm_num [P1]; linarith)]

/-- C6 amended: for a solved model with the default `drawdown_edge = 0` (exact
root `radius_infl ≥ radius_eff > 0`) and any threshold strictly between `0`
and `drawdown_stab`, the inverse query is well posed and round-trips exactly:
a radius in `[0, radius_infl_from_edge]` exists at which the balance residual
is `0` and `get_drawdown_at_r` returns exactly the threshold. For
`drawdown_edge ≠ 0` the round trip fails: thresholds above
`drawdown_stab - |drawdown_edge|` (such as `3/2` for `P1`) are attained at no
radius — the balance residual is bounded away from `0` everywhere — so the
solver cannot converge. -/
theorem C6_roundtrip_amended :
    (∀ (P : PitFlow) (R t : ℝ), 0 < P.radius_eff → P.radius_eff ≤ R →
      P.drawdown_edge = 0 → P.get_marinelli_niccoli_h_0 R = 0 →
      0 < t → t < P.drawdown_stab →
      ∃ r : ℝ, 0 ≤ r ∧ r ≤ P.radius_infl_from_edge R ∧
        P.balance_drawdown_threshold R r t = 0 ∧ P.get_drawdown_at_r R r = t) ∧
    (∀ r : ℝ, (1 / 2 : ℝ) ≤ |PitFlow.balance_drawdown_threshold P1 (Real.exp 1) r (3 / 2)|) := by
  constructor
  · intro P R t h1 h2 hedge hroot ht0 ht1
    have hR0 : (0 : ℝ) ≤ R - P.radius_eff := by linarith
    have hcont : ContinuousOn (fun r => P.drawdown_formula R r)
        (Set.Icc 0 (R - P.radius_eff)) := by
      unfold PitFlow.drawdown_formula PitFlow.radius_term
      apply ContinuousOn.sub continuousOn_const
      apply Real.continuous_sqrt.comp_continuousOn
      apply ContinuousOn.add continuousOn_const
      apply ContinuousOn.mul continuousOn_const
      apply ContinuousOn.sub
      · apply ContinuousOn.mul continuousOn_const
        apply ContinuousOn.log
        · exact ((continuous_id.add continuous_const).div_const _).continuousOn
        · intro x hx
          exact (div_pos (by linarith [hx.1]) h1).ne'
      · apply ContinuousOn.div_const
        exact (((continuous_id.add continuous_const).pow 2).sub continuous_const).continuousOn
    have hF0 : P.drawdown_formula R 0 = P.drawdown_stab := by
      unfold PitFlow.drawdown_formula
      rw [zero_add, radius_term_self P R h1.ne', mul_zero, add_zero, hedge]
      norm_num
    have hFb : P.drawdown_formula R (R - P.radius_eff) = 0 := by
      unfold PitFlow.drawdown_formula
      have hR : R - P.radius_eff + P.radius_eff = R := by ring
      rw [hR]
      have := stab_eq_sqrt P R hroot
      linarith
    have hmem : t ∈ Set.Icc (P.drawdown_formula R (R - P.radius_eff))
        (P.drawdown_formula R 0) := by
      rw [hF0, hFb]
      exact ⟨ht0.le, ht1.le⟩
    obtain ⟨r, hrIcc, hFr⟩ := intermediate_value_Icc' hR0 hcont hmem
    have hdd : P.get_drawdown_at_r R r = t := by
      unfold PitFlow.get_drawdown_at_r PitFlow.radius_infl_from_edge
      rw [if_neg (not_lt.mpr hrIcc.1), if_neg (not_lt.mpr hrIcc.2)]
      exact hFr
    refine ⟨r, hrIcc.1, hrIcc.2, ?_, hdd⟩
    unfold PitFlow.balance_drawdown_threshold
    rw [hdd]
    ring
  · intro r
    unfold PitFlow.balance_drawdown_threshold PitFlow.get_drawdown_at_r
      PitFlow.radius_infl_from_edge PitFlow.drawdown_formula
    split_ifs with hA hB
    · show (1 / 2 : ℝ) ≤ |P1.drawdown_stab - 3 / 2|
      norm_num [P1]
      exact le_abs_self _
    · show (1 / 2 : ℝ) ≤ |(0 : ℝ) - 3 / 2|
      norm_num
      rw [abs_of_nonneg (by norm_num : (0 : ℝ) ≤ 3 / 2)]
      norm_num
    · have hr0 : (0 : ℝ) ≤ r := not_lt.mp hA
      have hrR : r ≤ Real.exp 1 - P1.radius_eff := not_lt.mp hB
      have hterm : 0 ≤ P1.radius_term (Real.exp 1) (r + P1.radius_eff) := by
        have h0 := radius_term_self P1 (Real.exp 1) (by norm_num [P1])
        have hm := radius_term_mono P1 (Real.exp 1) P1.radius_eff (r + P1.radius_eff)
          (by norm_num [P1]) (le_refl _) (by linarith) (by linarith)
        linarith
      have hc : (0 : ℝ) ≤ P1.recharge / P1.cond_h := by
        have h := exp_one_sq_add_one_pos
        show (0 : ℝ) ≤ 6 / (Real.exp 1 ^ 2 + 1)
        positivity
      have harg : (1 : ℝ) ≤ P1.drawdown_edge ^ 2 +
          P1.recharge / P1.cond_h * P1.radius_term (Real.exp 1) (r + P1.radius_eff) := by
        have hmn : (0 : ℝ) ≤
            P1.recharge / P1.cond_h * P1.radius_term (Real.exp 1) (r + P1.radius_eff) :=
          mul_nonneg hc hterm
        have he : P1.drawdown_edge ^ 2 = 1 := by norm_num [P1]
        linarith
      have hsq : (1 : ℝ) ≤ Real.sqrt (P1.drawdown_edge ^ 2 +
          P1.recharge / P1.cond_h * P1.radius_term (Real.exp 1) (r + P1.radius_eff)) := by
        calc (1 : ℝ) = Real.sqrt 1 := Real.sqrt_one.symm
        _ ≤ _ := Real.sqrt_le_sqrt harg
      have hstab : P1.drawdown_stab = 2 := rfl
      have hv : P1.drawdown_stab - Real.sqrt (P1.drawdown_edge ^ 2 +
          P1.recharge / P1.cond_h * P1.radius_term (Real.exp 1) (r + P1.radius_eff)) - 3 / 2
          ≤ -(1 / 2) := by
        rw [hstab]
        linarith
      calc (1 / 2 : ℝ)
          ≤ -(P1.drawdown_stab - Real.sqrt (P1.drawdown_edge ^ 2 +
              P1.recharge / P1.cond_h * P1.radius_term (Real.exp 1) (r + P1.radius_eff))
              - 3 / 2) := by linarith
      _ ≤ |P1.drawdown_stab - Real.sqrt (P1.drawdown_edge ^ 2 +
              P1.recharge / P1.cond_h * P1.radius_term (Real.exp 1) (r + P1.radius_eff))
              - 3 / 2| := neg_le_abs _

/-- C6 witness: the round-trip half of the amended theorem instantiated at the
concrete solved model `P2` (root `exp 1`, `drawdown_edge = 0`) and the
threshold `t = 1/2`. -/
theorem C6_roundtrip_amended_witness :
    (0 : ℝ) < P2.radius_eff ∧ P2.drawdown_edge = 0 ∧
    PitFlow.get_marinelli_niccoli_h_0 P2 (Real.exp 1) = 0 ∧
    (0 : ℝ) < 1 / 2 ∧ (1 / 2 : ℝ) < P2.drawdown_stab ∧
    ∃ r : ℝ, 0 ≤ r ∧ r ≤ PitFlow.radius_infl_from_edge P2 (Real.exp 1) ∧
      PitFlow.balance_drawdown_threshold P2 (Real.exp 1) r (1 / 2) = 0 ∧
      PitFlow.get_drawdown_at_r P2 (Real.exp 1) r = 1 / 2 :=
  ⟨by norm_num [P2], rfl, P2_root, by norm_num, by norm_num [P2],
    C6_roundtrip_amended.1 P2 (Real.exp 1) (1 / 2) (by norm_num [P2]) one_le_exp_one rfl
      P2_root (by norm_num) (by norm_num [P2])⟩
